import Mathlib

/-!
# Formal model of the rimu-world product catalog service (src/main.py)

A shallow embedding of the FastAPI + SQLite product catalog:

* `Json`, `jsonLoads`, `jsonDumps` model the `json.loads` / `json.dumps`
  calls used by the handlers.  The model covers the JSON values this
  application actually stores and parses (null, booleans, integer
  numbers, strings, arrays); objects, fractional numbers and `\u`
  escapes are outside the model and make the parser fail.
* `Row` / `DB` model the single `products` table; `created_at` is an
  abstract timestamp (`Nat`) supplied to `create_product`.
* `create_product`, `get_product`, `get_products`, `update_product`,
  `delete_product` model the route handlers, after HTTP Basic
  authentication has succeeded.  Required `Form(...)` / `File(...)`
  fields are modelled as `Option` fields of a form record; a missing
  required field is rejected with status 422 before the handler body
  runs, mirroring FastAPI request validation.  File-system writes are
  returned as an explicit list of `(path, content)` pairs, and
  `delete_product` takes an oracle saying whether each `os.remove`
  succeeds.
* An unhandled Python exception (malformed stored JSON, the UNIQUE
  constraint firing on `product_id`, ...) is modelled as status 500.
-/

/-- JSON values, as produced by `json.loads` (restricted to the shapes
this application handles: no objects, integer numerals only). -/
inductive Json where
  | null : Json
  | bool : Bool → Json
  | num : Int → Json
  | str : String → Json
  | arr : List Json → Json

/-- JSON whitespace, as skipped by `json.loads`. -/
def isJsonWs (c : Char) : Bool :=
  c == ' ' || c == '\t' || c == '\n' || c == '\r'

def skipWs (s : List Char) : List Char :=
  s.dropWhile isJsonWs

/-- Translation of a JSON escape character (after a backslash).
`\uXXXX` escapes are outside the model. -/
def jsonEscChar (c : Char) : Option Char :=
  if c = '"' then some '"'
  else if c = '\\' then some '\\'
  else if c = '/' then some '/'
  else if c = 'n' then some '\n'
  else if c = 't' then some '\t'
  else if c = 'r' then some '\r'
  else if c = 'b' then some (Char.ofNat 8)
  else if c = 'f' then some (Char.ofNat 12)
  else none

/-- Parse the body of a JSON string (after the opening quote), returning
the decoded characters and the remaining input. -/
def parseStrBody : List Char → Option (List Char × List Char)
  | [] => none
  | '"' :: rest => some ([], rest)
  | '\\' :: e :: rest =>
    match jsonEscChar e with
    | some d => (parseStrBody rest).map (fun p => (d :: p.1, p.2))
    | none => none
  | ['\\'] => none
  | c :: rest =>
    if c.toNat < 32 then none
    else (parseStrBody rest).map (fun p => (c :: p.1, p.2))

/-- Parse a JSON (non-negative integer) numeral.  Fractional numbers and
exponents are outside the model and rejected. -/
def parseNatNum (s : List Char) : Option (Nat × List Char) :=
  let ds := s.takeWhile (·.isDigit)
  if ds.isEmpty then none
  else
    match s.dropWhile (·.isDigit) with
    | '.' :: _ => none
    | 'e' :: _ => none
    | 'E' :: _ => none
    | rest => some (ds.foldl (fun a c => 10 * a + (c.toNat - 48)) 0, rest)

mutual

/-- Parse one JSON value; the fuel bounds nesting and element count. -/
def parseVal : Nat → List Char → Option (Json × List Char)
  | 0, _ => none
  | Nat.succ fuel, s =>
    match skipWs s with
    | [] => none
    | '"' :: rest => (parseStrBody rest).map (fun p => (Json.str ⟨p.1⟩, p.2))
    | '[' :: rest =>
      match skipWs rest with
      | ']' :: r2 => some (Json.arr [], r2)
      | r => (parseElems fuel r).map (fun p => (Json.arr p.1, p.2))
    | 't' :: 'r' :: 'u' :: 'e' :: rest => some (Json.bool true, rest)
    | 'f' :: 'a' :: 'l' :: 's' :: 'e' :: rest => some (Json.bool false, rest)
    | 'n' :: 'u' :: 'l' :: 'l' :: rest => some (Json.null, rest)
    | '-' :: rest => (parseNatNum rest).map (fun p => (Json.num (-(p.1 : Int)), p.2))
    | c :: rest =>
      if c.isDigit then (parseNatNum (c :: rest)).map (fun p => (Json.num (p.1 : Int), p.2))
      else none

/-- Parse the elements of a non-empty JSON array, up to and including the
closing bracket. -/
def parseElems : Nat → List Char → Option (List Json × List Char)
  | 0, _ => none
  | Nat.succ fuel, s =>
    match parseVal fuel s with
    | none => none
    | some (v, r) =>
      match skipWs r with
      | ',' :: r2 => (parseElems fuel r2).map (fun p => (v :: p.1, p.2))
      | ']' :: r2 => some ([v], r2)
      | _ => none

end

/-- Model of Python `json.loads`: parse a complete JSON document,
requiring only whitespace after the value. -/
def jsonLoads (s : String) : Option Json :=
  match parseVal (s.length + 1) s.data with
  | some (v, r) => if (skipWs r).isEmpty then some v else none
  | none => none

/-- Big-endian decimal digits of `n` (empty for `0`); the fuel argument
makes the recursion structural. -/
def toDecimalAux : Nat → Nat → List Char
  | 0, _ => []
  | Nat.succ fuel, n =>
    if n = 0 then [] else toDecimalAux fuel (n / 10) ++ [Nat.digitChar (n % 10)]

/-- Big-endian decimal digits of `n`, empty for `0`. -/
def decChars (n : Nat) : List Char := toDecimalAux (n + 1) n

/-- Decimal representation of a natural number. -/
def natRepr (n : Nat) : String :=
  if n = 0 then "0" else ⟨decChars n⟩

/-- Decimal representation of an integer, as printed by `json.dumps`. -/
def intRepr (i : Int) : String :=
  match i with
  | Int.ofNat n => natRepr n
  | Int.negSucc n => "-" ++ natRepr (n + 1)

/-- Python `f"{n:04d}"`: the decimal representation of `n`, left-padded
with zeros to at least four characters. -/
def pad4 (n : Nat) : String :=
  ⟨List.replicate (4 - (decChars n).length) '0' ++ decChars n⟩

/-- Escaping of one character inside a JSON string literal, as done by
`json.dumps` (control characters other than the common escapes are
outside the model). -/
def jsonEscOut (c : Char) : String :=
  if c = '"' then "\\\""
  else if c = '\\' then "\\\\"
  else if c = '\n' then "\\n"
  else if c = '\t' then "\\t"
  else if c = '\r' then "\\r"
  else String.singleton c

mutual

/-- Model of Python `json.dumps` (default separators, so `", "` between
array elements). -/
def jsonDumps : Json → String
  | Json.null => "null"
  | Json.bool b => if b then "true" else "false"
  | Json.num i => intRepr i
  | Json.str s => "\"" ++ String.join (s.data.map jsonEscOut) ++ "\""
  | Json.arr l => "[" ++ String.intercalate ", " (jsonDumpsList l) ++ "]"

/-- Serialization of the elements of a JSON array. -/
def jsonDumpsList : List Json → List String
  | [] => []
  | j :: js => jsonDumps j :: jsonDumpsList js

end

/-- One row of the `products` table.  `sizes`, `colors`, `images` are the
raw TEXT column values (JSON-encoded), `none` standing for SQL NULL. -/
structure Row where
  id : Nat
  product_id : String
  name : String
  type : String
  category : String
  details : String
  price : ℚ
  sizes : Option String
  colors : Option String
  images : Option String
  created_at : Nat
deriving DecidableEq, Repr

/-- The database: the `products` table in insertion order, plus the next
AUTOINCREMENT surrogate key. -/
structure DB where
  rows : List Row
  nextId : Nat
deriving DecidableEq, Repr

def emptyDB : DB := ⟨[], 1⟩

/-- An uploaded file: its client-supplied filename and binary content. -/
structure UploadFile where
  filename : String
  content : String
deriving DecidableEq, Repr

/-- A file written to disk: target path and content. -/
abbrev FileWrite := String × String

/-- `generate_product_id`: count the rows, return `RW` + zero-padded
count+1. -/
def generate_product_id (db : DB) : String :=
  "RW" ++ pad4 (db.rows.length + 1)

/-- Python `filename.split('.')[-1]`: the suffix after the last `'.'`,
or the whole string when it contains no `'.'`. -/
def lastExt (fn : String) : String :=
  ⟨(fn.data.reverse.takeWhile (fun c => !(c == '.'))).reverse⟩

/-- Truthiness of Python `Optional[str]`: `None` and `""` are falsy. -/
def pyTruthy : Option String → Bool
  | none => false
  | some s => !(s == "")

/-- The image-saving loop of `create_product`: `idx` is the `enumerate`
counter (it advances over files with empty filenames too, which are
skipped).  Returns the file writes and the public paths, in order. -/
def saveImagesCreate (pid : String) : Nat → List UploadFile → List FileWrite × List String
  | _, [] => ([], [])
  | idx, img :: rest =>
    let (ws, ps) := saveImagesCreate pid (idx + 1) rest
    if img.filename ≠ "" then
      let fn := pid ++ "_" ++ natRepr idx ++ "." ++ lastExt img.filename
      (("static/uploads/" ++ fn, img.content) :: ws, ("/static/uploads/" ++ fn) :: ps)
    else (ws, ps)

/-- The `POST /api/admin/products` form: `Form(...)` / `File(...)` fields
are required (`none` = missing from the request, rejected with 422);
`sizes` and `colors` default to `"[]"` when missing. -/
structure CreateForm where
  name : Option String
  type : Option String
  category : Option String
  details : Option String
  price : Option ℚ
  sizes : Option String
  colors : Option String
  images : Option (List UploadFile)
deriving Repr

/-- `create_product` (after admin verification): generate the id, write
the image files, then INSERT.  A UNIQUE-constraint violation on
`product_id` is an unhandled `sqlite3.IntegrityError`, i.e. a 500, and
happens only after the files have been written. -/
def create_product (db : DB) (now : Nat) (form : CreateForm) :
    DB × List FileWrite × Except Nat String :=
  match form.name, form.type, form.category, form.details, form.price, form.images with
  | some nm, some ty, some cat, some det, some pr, some imgs =>
    let pid := generate_product_id db
    let (writes, paths) := saveImagesCreate pid 0 imgs
    if db.rows.any (fun r => r.product_id == pid) then
      (db, writes, Except.error 500)
    else
      ({ rows := db.rows ++
           [{ id := db.nextId, product_id := pid, name := nm, type := ty,
              category := cat, details := det, price := pr,
              sizes := some (form.sizes.getD "[]"),
              colors := some (form.colors.getD "[]"),
              images := some (jsonDumps (Json.arr (paths.map Json.str))),
              created_at := now }],
         nextId := db.nextId + 1 },
       writes, Except.ok pid)
  | _, _, _, _, _, _ => (db, [], Except.error 422)

/-- A product as returned by the read API: `dict(row)` with the three
JSON columns deserialized. -/
structure Product where
  id : Nat
  product_id : String
  name : String
  type : String
  category : String
  details : String
  price : ℚ
  sizes : Json
  colors : Json
  images : Json
  created_at : Nat

/-- `json.loads(col) if col else []`: NULL or empty text give `[]`,
otherwise the column is parsed (a parse failure is an unhandled
exception). -/
def loadCol (c : Option String) : Option Json :=
  match c with
  | none => some (Json.arr [])
  | some s => if s = "" then some (Json.arr []) else jsonLoads s

/-- Deserialize one row; `none` models the handler raising on malformed
stored JSON. -/
def rowToProduct (r : Row) : Option Product :=
  match loadCol r.sizes, loadCol r.colors, loadCol r.images with
  | some sz, some co, some im =>
    some { id := r.id, product_id := r.product_id, name := r.name,
           type := r.type, category := r.category, details := r.details,
           price := r.price, sizes := sz, colors := co, images := im,
           created_at := r.created_at }
  | _, _, _ => none

def rowsToProducts : List Row → Option (List Product)
  | [] => some []
  | r :: rs =>
    match rowToProduct r, rowsToProducts rs with
    | some p, some ps => some (p :: ps)
    | _, _ => none

/-- `ORDER BY created_at DESC`: newest first. -/
def newerFirst (a b : Row) : Prop := b.created_at ≤ a.created_at

instance : DecidableRel newerFirst := fun _ _ => Nat.decLe _ _

instance : IsTotal Row newerFirst := ⟨fun x y => Nat.le_total y.created_at x.created_at⟩

instance : IsTrans Row newerFirst := ⟨fun _ _ _ h h' => Nat.le_trans h' h⟩

/-- `GET /api/products`: the `if type:` filter is taken only for a truthy
(non-`None`, non-empty) query value; rows come back newest first with the
three JSON columns deserialized. -/
def get_products (db : DB) (ty : Option String) : Except Nat (List Product) :=
  let rows := if pyTruthy ty then db.rows.filter (fun r => r.type == ty.getD "") else db.rows
  match rowsToProducts (List.insertionSort newerFirst rows) with
  | some ps => Except.ok ps
  | none => Except.error 500

/-- `GET /api/products/{product_id}`: 404 when no row matches, otherwise
the deserialized row (500 on malformed stored JSON). -/
def get_product (db : DB) (pid : String) : Except Nat Product :=
  match db.rows.find? (fun r => r.product_id == pid) with
  | none => Except.error 404
  | some r =>
    match rowToProduct r with
    | some p => Except.ok p
    | none => Except.error 500

/-- The `PUT /api/admin/products/{product_id}` form: like `CreateForm`
but `images` is `File(None)` (optional) and `existing_images` is a
`Form("[]")` string. -/
structure UpdateForm where
  name : Option String
  type : Option String
  category : Option String
  details : Option String
  price : Option ℚ
  sizes : Option String
  colors : Option String
  images : Option (List UploadFile)
  existing_images : Option String
deriving Repr

/-- The image-saving loop of `update_product`: the new filename's index
is `len(image_paths) + idx`, where `image_paths` (the accumulator) also
receives the path appended for each saved file, and `idx` is the
`enumerate` counter.  Returns the file writes and the final
`image_paths`. -/
def saveImagesUpdate (pid : String) : Nat → List Json → List UploadFile →
    List FileWrite × List Json
  | _, paths, [] => ([], paths)
  | idx, paths, img :: rest =>
    if img.filename ≠ "" then
      let fn := pid ++ "_" ++ natRepr (paths.length + idx) ++ "." ++ lastExt img.filename
      let (ws, final) :=
        saveImagesUpdate pid (idx + 1) (paths ++ [Json.str ("/static/uploads/" ++ fn)]) rest
      (("static/uploads/" ++ fn, img.content) :: ws, final)
    else saveImagesUpdate pid (idx + 1) paths rest

/-- The image-handling block of `update_product`: `if images and
images[0].filename:` — files are saved only when the batch is non-empty
and its first file has a truthy filename.  Returns the file writes and
the final `image_paths` list. -/
def updateImages (pid : String) (l : List Json) (imgs : Option (List UploadFile)) :
    List FileWrite × List Json :=
  let iv := imgs.getD []
  let doUpload :=
    match iv with
    | [] => false
    | f :: _ => f.filename ≠ ""
  if doUpload then saveImagesUpdate pid 0 l iv else ([], l)

/-- `update_product` (after admin verification): 404 before any file
write when the row is missing; `json.loads(existing_images)` must give a
list (`.copy()` / `.append` on any other value raises, a 500); then
every field except `product_id` / `created_at` (and the surrogate key)
is overwritten. -/
def update_product (db : DB) (pid : String) (form : UpdateForm) :
    DB × List FileWrite × Except Nat String :=
  match form.name, form.type, form.category, form.details, form.price with
  | some nm, some ty, some cat, some det, some pr =>
    match db.rows.find? (fun r => r.product_id == pid) with
    | none => (db, [], Except.error 404)
    | some _ =>
      match jsonLoads (form.existing_images.getD "[]") with
      | some (Json.arr l) =>
        let (writes, finalPaths) := updateImages pid l form.images
        ({ db with rows := db.rows.map (fun r =>
             if r.product_id == pid then
               { r with name := nm, type := ty, category := cat, details := det,
                        price := pr,
                        sizes := some (form.sizes.getD "[]"),
                        colors := some (form.colors.getD "[]"),
                        images := some (jsonDumps (Json.arr finalPaths)) }
             else r) },
         writes, Except.ok pid)
      | _ => (db, [], Except.error 500)
  | _, _, _, _, _ => (db, [], Except.error 422)

/-- Python `path.lstrip('/')`. -/
def stripSlashes (p : String) : String :=
  ⟨p.data.dropWhile (· == '/')⟩

/-- The paths handed to `os.remove` by `delete_product`, given the parsed
`images` column.  Iterating a JSON array attempts removal of its string
elements (`.lstrip` on a non-string raises inside the bare `try`, so is
swallowed); iterating a decoded string yields its characters; any other
value is not iterable, an unhandled `TypeError` (`none`). -/
def deleteAttempts : Json → Option (List String)
  | Json.arr l =>
    some (l.filterMap (fun e =>
      match e with
      | Json.str p => some (stripSlashes p)
      | _ => none))
  | Json.str s => some (s.data.map (fun c => stripSlashes (String.singleton c)))
  | _ => none

/-- `delete_product` (after admin verification): best-effort removal of
the stored image files (each attempt's success given by `oracle`, and
ignored), then DELETE the row; reports success whether or not the row
existed. -/
def delete_product (db : DB) (pid : String) (oracle : String → Bool) :
    DB × List (String × Bool) × Except Nat Unit :=
  match db.rows.find? (fun r => r.product_id == pid) with
  | none =>
    ({ db with rows := db.rows.filter (fun r => !(r.product_id == pid)) },
     [], Except.ok ())
  | some r =>
    match r.images with
    | none => (db, [], Except.error 500)
    | some s =>
      match jsonLoads s with
      | none => (db, [], Except.error 500)
      | some j =>
        match deleteAttempts j with
        | none => (db, [], Except.error 500)
        | some paths =>
          ({ db with rows := db.rows.filter (fun r => !(r.product_id == pid)) },
           paths.map (fun p => (p, oracle p)), Except.ok ())

/-! ## Decimal formatting lemmas

`decVal` reads a digit string back as a number; it is a left inverse of
`pad4`, which gives injectivity of the generated product ids. -/

def decStep (a : Nat) (c : Char) : Nat := 10 * a + (c.toNat - 48)

def decVal (l : List Char) : Nat := l.foldl decStep 0

theorem digitChar_toNat {d : Nat} (h : d < 10) : (Nat.digitChar d).toNat = 48 + d := by
  interval_cases d <;> rfl

theorem foldl_toDecimalAux (fuel : Nat) :
    ∀ n, n ≤ fuel → ∀ acc,
      (toDecimalAux fuel n).foldl decStep acc =
        acc * 10 ^ (toDecimalAux fuel n).length + n := by
  induction fuel with
  | zero =>
    intro n hn acc
    have : n = 0 := Nat.le_zero.mp hn
    subst this
    simp [toDecimalAux]
  | succ fuel ih =>
    intro n hn acc
    by_cases h0 : n = 0
    · subst h0; simp [toDecimalAux]
    · have hdiv : n / 10 ≤ fuel := by
        have h1 : n / 10 < n := Nat.div_lt_self (Nat.pos_of_ne_zero h0) (by norm_num)
        omega
      simp only [toDecimalAux, if_neg h0]
      rw [List.foldl_append, ih _ hdiv acc]
      have hlt : n % 10 < 10 := Nat.mod_lt n (by norm_num)
      simp only [List.foldl_cons, List.foldl_nil, decStep, digitChar_toNat hlt,
        List.length_append, List.length_cons, List.length_nil]
      have hmod : 48 + n % 10 - 48 = n % 10 := by omega
      rw [hmod]
      have hdm := Nat.div_add_mod n 10
      have : 10 * (acc * 10 ^ (toDecimalAux fuel (n / 10)).length + n / 10) + n % 10 =
          acc * 10 ^ ((toDecimalAux fuel (n / 10)).length + 1) + (10 * (n / 10) + n % 10) := by
        ring
      rw [this, hdm]

theorem foldl_replicate_zero (j : Nat) :
    ∀ acc, (List.replicate j '0').foldl decStep acc = acc * 10 ^ j := by
  induction j with
  | zero => intro acc; simp
  | succ j ih =>
    intro acc
    rw [List.replicate_succ, List.foldl_cons, ih]
    have : decStep acc '0' = acc * 10 := by simp [decStep]; omega
    rw [this]
    ring

theorem decVal_pad4 (n : Nat) : decVal (pad4 n).data = n := by
  show (List.replicate (4 - (decChars n).length) '0' ++ decChars n).foldl decStep 0 = n
  rw [List.foldl_append, foldl_replicate_zero]
  show (toDecimalAux (n + 1) n).foldl decStep _ = n
  rw [foldl_toDecimalAux (n + 1) n (Nat.le_succ n)]
  simp

theorem pad4_injective : Function.Injective pad4 := by
  intro a b h
  have := congrArg (fun s => decVal s.data) h
  simpa [decVal_pad4] using this

theorem rwId_injective {a b : Nat} (h : "RW" ++ pad4 a = "RW" ++ pad4 b) : a = b := by
  have hdata := congrArg String.data h
  simp only [String.data_append] at hdata
  have : (pad4 a).data = (pad4 b).data := List.append_cancel_left hdata
  have hval := congrArg decVal this
  simpa [show ∀ m, decVal (pad4 m).data = m from decVal_pad4] using hval

/-! ## Sequential creation (C1 machinery) -/

/-- One sequential create call: the resulting store (a failed create
leaves the store unchanged). -/
def createStep (db : DB) (op : Nat × CreateForm) : DB :=
  (create_product db op.1 op.2).1

/-- The store after a sequence of sequential create calls starting from
the empty store. -/
def runCreates (ops : List (Nat × CreateForm)) : DB :=
  ops.foldl createStep emptyDB

/-- Invariant: the stored ids are exactly `RW0001 .. RW<n>` in insertion
order. -/
def SeqIds (db : DB) : Prop :=
  db.rows.map Row.product_id =
    (List.range db.rows.length).map (fun i => "RW" ++ pad4 (i + 1))

theorem createStep_preserves (db : DB) (op : Nat × CreateForm) (h : SeqIds db) :
    SeqIds (createStep db op) := by
  obtain ⟨now, form⟩ := op
  obtain ⟨nm, ty, cat, det, pr, sz, co, imgs⟩ := form
  cases nm with
  | none => simpa [createStep, create_product] using h
  | some nm =>
  cases ty with
  | none => simpa [createStep, create_product] using h
  | some ty =>
  cases cat with
  | none => simpa [createStep, create_product] using h
  | some cat =>
  cases det with
  | none => simpa [createStep, create_product] using h
  | some det =>
  cases pr with
  | none => simpa [createStep, create_product] using h
  | some pr =>
  cases imgs with
  | none => simpa [createStep, create_product] using h
  | some imgs =>
  have hfresh : db.rows.any (fun r => r.product_id == generate_product_id db) = false := by
    rw [List.any_eq_false]
    intro r hr
    simp only [beq_iff_eq]
    intro hcontra
    have hmem : r.product_id ∈ db.rows.map Row.product_id := List.mem_map_of_mem _ hr
    rw [h] at hmem
    obtain ⟨i, hi, hip⟩ := List.mem_map.mp hmem
    have hilt : i < db.rows.length := List.mem_range.mp hi
    have : i + 1 = db.rows.length + 1 := rwId_injective (hip.trans hcontra)
    omega
  simp only [createStep, create_product, hfresh, Bool.false_eq_true, if_false, if_neg]
  unfold SeqIds at h ⊢
  simp only [List.map_append, List.length_append, List.map_cons, List.map_nil,
    List.length_cons, List.length_nil]
  rw [h]
  rw [show db.rows.length + (0 + 1) = db.rows.length + 1 by omega, List.range_succ]
  simp [generate_product_id]

theorem runCreates_seqIds (ops : List (Nat × CreateForm)) : SeqIds (runCreates ops) := by
  suffices h : ∀ db, SeqIds db → SeqIds (ops.foldl createStep db) by
    apply h
    simp [SeqIds, emptyDB]
  induction ops with
  | nil => intro db hdb; exact hdb
  | cons op ops ih =>
    intro db hdb
    exact ih _ (createStep_preserves db op hdb)

/-! ## Image-saving loop lemmas (C2, C3 machinery) -/

theorem saveImagesCreate_writes (pid : String) :
    ∀ (imgs : List UploadFile) (idx : Nat),
      (saveImagesCreate pid idx imgs).1 =
        (imgs.enumFrom idx).filterMap (fun p =>
          if p.2.filename ≠ "" then
            some ("static/uploads/" ++ pid ++ "_" ++ natRepr p.1 ++ "." ++
                    lastExt p.2.filename, p.2.content)
          else none) := by
  intro imgs
  induction imgs with
  | nil => intro idx; simp [saveImagesCreate]
  | cons img rest ih =>
    intro idx
    rw [List.enumFrom_cons, List.filterMap_cons]
    by_cases h : img.filename = ""
    · simp only [saveImagesCreate, h, ne_eq, not_true_eq_false, if_false, ite_false]
      exact ih (idx + 1)
    · simp only [saveImagesCreate, h, ne_eq, not_false_eq_true, if_true, ite_true]
      rw [ih (idx + 1)]
      simp [String.append_assoc]

/-- The filenames `update_product` actually produces for an all-named
batch: starting at `base`, the index advances by 2 per file (the
`enumerate` counter plus the growing `image_paths`). -/
def expectedUpdateWrites (pid : String) : Nat → List UploadFile → List FileWrite
  | _, [] => []
  | base, f :: fs =>
    ("static/uploads/" ++ pid ++ "_" ++ natRepr base ++ "." ++ lastExt f.filename,
      f.content) :: expectedUpdateWrites pid (base + 2) fs

theorem saveImagesUpdate_writes (pid : String) :
    ∀ (imgs : List UploadFile) (idx : Nat) (paths : List Json),
      (∀ f ∈ imgs, f.filename ≠ "") →
      (saveImagesUpdate pid idx paths imgs).1 =
        expectedUpdateWrites pid (paths.length + idx) imgs := by
  intro imgs
  induction imgs with
  | nil => intro idx paths _; simp [saveImagesUpdate, expectedUpdateWrites]
  | cons img rest ih =>
    intro idx paths hall
    have hne : img.filename ≠ "" := hall img (List.mem_cons_self _ _)
    simp only [saveImagesUpdate, hne, ne_eq, not_false_eq_true, if_true, ite_true,
      expectedUpdateWrites]
    have ihr := ih (idx + 1) (paths ++ [Json.str ("/static/uploads/" ++
      (pid ++ "_" ++ natRepr (paths.length + idx) ++ "." ++ lastExt img.filename))])
      (fun f hf => hall f (List.mem_cons_of_mem _ hf))
    rw [ihr]
    simp only [List.length_append, List.length_cons, List.length_nil]
    have harith : paths.length + 1 + (idx + 1) = paths.length + idx + 2 := by omega
    rw [harith]
    simp [String.append_assoc]

theorem saveImagesUpdate_final (pid : String) :
    ∀ (imgs : List UploadFile) (idx : Nat) (paths : List Json),
      (saveImagesUpdate pid idx paths imgs).2 =
        paths ++ (saveImagesUpdate pid idx paths imgs).1.map
          (fun wrt => Json.str ("/" ++ wrt.1)) := by
  intro imgs
  induction imgs with
  | nil => intro idx paths; simp [saveImagesUpdate]
  | cons img rest ih =>
    intro idx paths
    by_cases h : img.filename = ""
    · simp only [saveImagesUpdate, h, ne_eq, not_true_eq_false, if_false, ite_false]
      exact ih (idx + 1) paths
    · simp only [saveImagesUpdate, h, ne_eq, not_false_eq_true, if_true, ite_true,
        List.map_cons]
      rw [ih (idx + 1)]
      rw [List.append_assoc]
      simp only [String.append_assoc, List.singleton_append]
      have hsl : ("/" : String) ++ "static/uploads/" = "/static/uploads/" := by decide
      rw [← hsl, String.append_assoc]

/-! ## Deserialization lemmas (C8 machinery) -/

theorem rowsToProducts_forall₂ :
    ∀ {l : List Row} {ps : List Product}, rowsToProducts l = some ps →
      List.Forall₂ (fun r p => rowToProduct r = some p) l ps := by
  intro l
  induction l with
  | nil => intro ps h; simp [rowsToProducts] at h; subst h; exact List.Forall₂.nil
  | cons r rs ih =>
    intro ps h
    simp only [rowsToProducts] at h
    cases hr : rowToProduct r with
    | none => rw [hr] at h; simp at h
    | some p =>
      rw [hr] at h
      cases hrs : rowsToProducts rs with
      | none => rw [hrs] at h; simp at h
      | some ps' =>
        rw [hrs] at h
        simp only [Option.some.injEq] at h
        subst h
        exact List.Forall₂.cons hr (ih hrs)

theorem forall₂_exists_left {α β : Type} {R : α → β → Prop} :
    ∀ {l : List α} {ps : List β}, List.Forall₂ R l ps → ∀ p ∈ ps, ∃ r ∈ l, R r p := by
  intro l ps h
  induction h with
  | nil => intro p hp; simp at hp
  | cons hr hrest ih =>
    intro p hp
    rcases List.mem_cons.mp hp with h1 | h2
    · exact ⟨_, List.mem_cons_self _ _, h1 ▸ hr⟩
    · obtain ⟨r, hrm, hR⟩ := ih p h2
      exact ⟨r, List.mem_cons_of_mem _ hrm, hR⟩

theorem forall₂_exists_right {α β : Type} {R : α → β → Prop} :
    ∀ {l : List α} {ps : List β}, List.Forall₂ R l ps → ∀ r ∈ l, ∃ p ∈ ps, R r p := by
  intro l ps h
  induction h with
  | nil => intro r hr; simp at hr
  | cons hr hrest ih =>
    intro r hrm
    rcases List.mem_cons.mp hrm with h1 | h2
    · exact ⟨_, List.mem_cons_self _ _, h1 ▸ hr⟩
    · obtain ⟨p, hpm, hR⟩ := ih r h2
      exact ⟨p, List.mem_cons_of_mem _ hpm, hR⟩

theorem forall₂_pairwise {α β : Type} {R : α → β → Prop} {S : α → α → Prop}
    {T : β → β → Prop}
    (hcompat : ∀ a b p q, R a p → R b q → S a b → T p q) :
    ∀ {l : List α} {ps : List β}, List.Forall₂ R l ps → l.Pairwise S → ps.Pairwise T := by
  intro l ps h
  induction h with
  | nil => intro _; exact List.Pairwise.nil
  | cons hr hrest ih =>
    intro hpw
    rcases List.pairwise_cons.mp hpw with ⟨hhead, htail⟩
    refine List.pairwise_cons.mpr ⟨?_, ih htail⟩
    intro q hq
    obtain ⟨b, hbm, hbq⟩ := forall₂_exists_left hrest q hq
    exact hcompat _ _ _ _ hr hbq (hhead b hbm)

theorem rowToProduct_created_at {r : Row} {p : Product}
    (h : rowToProduct r = some p) : p.created_at = r.created_at := by
  simp only [rowToProduct] at h
  cases h1 : loadCol r.sizes with
  | none => rw [h1] at h; simp at h
  | some sz =>
    cases h2 : loadCol r.colors with
    | none => rw [h1, h2] at h; simp at h
    | some co =>
      cases h3 : loadCol r.images with
      | none => rw [h1, h2, h3] at h; simp at h
      | some im =>
        rw [h1, h2, h3] at h
        simp only [Option.some.injEq] at h
        subst h
        rfl

theorem updateImages_final (pid : String) (l : List Json) (imgs : Option (List UploadFile)) :
    (updateImages pid l imgs).2 =
      l ++ (updateImages pid l imgs).1.map (fun wrt => Json.str ("/" ++ wrt.1)) := by
  unfold updateImages
  cases imgs with
  | none => simp
  | some fs =>
    cases fs with
    | nil => simp
    | cons f fs =>
      by_cases h : f.filename = ""
      · simp [h]
      · simp only [Option.getD_some, h, ne_eq, not_false_eq_true, if_true, ite_true]
        exact saveImagesUpdate_final pid (f :: fs) 0 l

theorem updateImages_writes_all_named (pid : String) (l : List Json)
    (imgs : List UploadFile) (hall : ∀ f ∈ imgs, f.filename ≠ "") :
    (updateImages pid l (some imgs)).1 = expectedUpdateWrites pid l.length imgs := by
  unfold updateImages
  cases imgs with
  | nil => simp [expectedUpdateWrites]
  | cons f fs =>
    have hne : f.filename ≠ "" := hall f (List.mem_cons_self _ _)
    simp only [Option.getD_some, hne, ne_eq, not_false_eq_true, if_true, ite_true]
    have := saveImagesUpdate_writes pid (f :: fs) 0 l hall
    simpa using this

/-! ## Claim theorems -/

/-- C10: listing with the `type` query parameter set to the empty string
behaves exactly as listing with no filter at all — the filter branch is
taken only for a non-empty type string, so every product is returned,
not the products whose type equals the empty string. -/
theorem get_products_empty_type_unfiltered (db : DB) :
    get_products db (some "") = get_products db none := rfl

/-- C9: a successful update leaves every row's surrogate key,
`product_id` and `created_at` unchanged — only the other fields are
written. -/
theorem update_preserves_id_and_created_at
    (db : DB) (pid nm ty cat det : String) (pr : ℚ)
    (sz co : Option String) (imgs : Option (List UploadFile)) (exist : Option String)
    (db' : DB) (w : List FileWrite) (m : String)
    (h : update_product db pid ⟨some nm, some ty, some cat, some det, some pr, sz, co, imgs, exist⟩
        = (db', w, Except.ok m)) :
    List.Forall₂ (fun r r' => r'.id = r.id ∧ r'.product_id = r.product_id ∧
      r'.created_at = r.created_at) db.rows db'.rows := by
  simp only [update_product] at h
  cases hf : db.rows.find? (fun r => r.product_id == pid) with
  | none => rw [hf] at h; simp at h
  | some r0 =>
    rw [hf] at h
    cases hj : jsonLoads ((Option.getD exist "[]")) with
    | none => rw [hj] at h; simp at h
    | some j =>
      rw [hj] at h
      cases j with
      | arr l =>
        simp only [Prod.mk.injEq] at h
        obtain ⟨h1, _, _⟩ := h
        rw [← h1]
        simp only [List.forall₂_map_right_iff]
        rw [List.forall₂_same]
        intro r _
        by_cases hr : r.product_id == pid <;> simp [hr]
      | null => simp at h
      | bool b => simp at h
      | num i => simp at h
      | str s => simp at h

/-- C6: getting or updating a `product_id` with no matching row fails
with 404; the update 404 happens before any file is written and leaves
the store unchanged; and when a matching row exists, neither operation
can fail with 404. -/
theorem get_update_not_found_behavior
    (db : DB) (pid nm ty cat det : String) (pr : ℚ)
    (sz co : Option String) (imgs : Option (List UploadFile)) (exist : Option String) :
    ((∀ r ∈ db.rows, r.product_id ≠ pid) →
       get_product db pid = Except.error 404 ∧
       update_product db pid ⟨some nm, some ty, some cat, some det, some pr, sz, co, imgs, exist⟩
         = (db, [], Except.error 404)) ∧
    ((∃ r ∈ db.rows, r.product_id = pid) →
       get_product db pid ≠ Except.error 404 ∧
       (update_product db pid
           ⟨some nm, some ty, some cat, some det, some pr, sz, co, imgs, exist⟩).2.2
         ≠ Except.error 404) := by
  constructor
  · intro hnone
    have hf : db.rows.find? (fun r => r.product_id == pid) = none := by
      rw [List.find?_eq_none]
      intro r hr
      simpa using hnone r hr
    constructor
    · simp [get_product, hf]
    · simp [update_product, hf]
  · rintro ⟨r, hr, hp⟩
    have hf : (db.rows.find? (fun r => r.product_id == pid)).isSome := by
      rw [List.find?_isSome]
      exact ⟨r, hr, by simp [hp]⟩
    obtain ⟨r0, hr0⟩ := Option.isSome_iff_exists.mp hf
    constructor
    · simp only [get_product, hr0]
      cases hrp : rowToProduct r0 <;> simp
    · simp only [update_product, hr0]
      cases hj : jsonLoads ((Option.getD exist "[]")) with
      | none => simp
      | some j => cases j <;> simp

/-- A create form whose `sizes` / `colors` strings are not valid JSON. -/
def invalidJsonForm : CreateForm :=
  ⟨some "N", some "T", some "C", some "D", some 1,
   some "not json", some "also not json", some []⟩

/-- C4 counterexample: `create_product` performs no JSON validation of
`sizes` / `colors` — the syntactically invalid string `"not json"` is
accepted and stored verbatim rather than rejected. -/
theorem create_accepts_invalid_json_sizes :
    jsonLoads "not json" = none ∧
    (create_product emptyDB 3 invalidJsonForm).2.2 = Except.ok "RW0001" ∧
    (create_product emptyDB 3 invalidJsonForm).1.rows.map Row.sizes = [some "not json"] ∧
    (create_product emptyDB 3 invalidJsonForm).1.rows.map Row.colors = [some "also not json"] :=
  ⟨rfl, rfl, rfl, rfl⟩

/-- C4 (amended): create does not inspect the caller-supplied `sizes` /
`colors` strings at all — whatever strings are supplied (valid JSON or
not), the insert succeeds (whenever the generated id is fresh) and the
row stores both strings verbatim. -/
theorem create_stores_sizes_colors_verbatim
    (db : DB) (now : Nat) (nm ty cat det s c : String) (pr : ℚ) (imgs : List UploadFile)
    (hfresh : db.rows.any (fun r => r.product_id == generate_product_id db) = false) :
    ∃ row : Row,
      (create_product db now
          ⟨some nm, some ty, some cat, some det, some pr, some s, some c, some imgs⟩).1.rows
        = db.rows ++ [row] ∧
      row.sizes = some s ∧ row.colors = some c ∧
      (create_product db now
          ⟨some nm, some ty, some cat, some det, some pr, some s, some c, some imgs⟩).2.2
        = Except.ok (generate_product_id db) := by
  simp only [create_product, hfresh, Bool.false_eq_true, if_false]
  exact ⟨_, rfl, rfl, rfl, trivial⟩

/-- C5 counterexample: `category` is a required form field of create —
the request from the claim (all other required fields supplied, category
missing) is rejected with 422 instead of succeeding. -/
theorem create_missing_category_rejected :
    create_product emptyDB 0
        ⟨some "Tee", some "apparel", none, some "desc", some (1999 / 100), none, none,
         some [⟨"", ""⟩]⟩
      = (emptyDB, [], Except.error 422) := rfl

/-- The create request of the concrete C5 scenario, with the required
`category`, `details` and `images` fields supplied (the single image
part has an empty filename, so no file is stored). -/
def teeForm : CreateForm :=
  ⟨some "Tee", some "apparel", some "casual", some "desc", some (1999 / 100), none, none,
   some [⟨"", ""⟩]⟩

/-- C5 (amended): `category` (like `details` and the `images` field) is
required by create; supplying them together with name "Tee", type
"apparel" and price 19.99 and no stored image file succeeds as RW0001,
stores `images = []`, and a subsequent get returns price 19.99 and an
empty images array. -/
theorem create_tee_then_get :
    (create_product emptyDB 7 teeForm).2.2 = Except.ok "RW0001" ∧
    (create_product emptyDB 7 teeForm).1.rows.map Row.images = [some "[]"] ∧
    ∃ p : Product, get_product (create_product emptyDB 7 teeForm).1 "RW0001" = Except.ok p ∧
      p.price = 1999 / 100 ∧ p.images = Json.arr [] :=
  ⟨rfl, rfl,
   ⟨{ id := 1, product_id := "RW0001", name := "Tee", type := "apparel",
      category := "casual", details := "desc", price := 1999 / 100,
      sizes := Json.arr [], colors := Json.arr [], images := Json.arr [],
      created_at := 7 }, rfl, rfl, rfl⟩⟩

/-- C7: delete reports success for every `product_id` — including a
nonexistent one, where the store is left unchanged and no removal is
attempted — and when the row exists (with a well-formed stored images
array), removal of each stored image file is attempted and the outcome
of each attempt influences neither the reported success nor the row
deletion. -/
theorem delete_always_reports_success (db : DB) (pid : String) (oracle : String → Bool) :
    ((∀ r ∈ db.rows, r.product_id ≠ pid) →
       delete_product db pid oracle = (db, [], Except.ok ())) ∧
    (∀ (r0 : Row) (s : String) (l : List String),
       db.rows.find? (fun r => r.product_id == pid) = some r0 →
       r0.images = some s → jsonLoads s = some (Json.arr (l.map Json.str)) →
       delete_product db pid oracle =
         ({ db with rows := db.rows.filter (fun r => !(r.product_id == pid)) },
          l.map (fun p => (stripSlashes p, oracle (stripSlashes p))), Except.ok ())) := by
  constructor
  · intro hnone
    have hf : db.rows.find? (fun r => r.product_id == pid) = none := by
      rw [List.find?_eq_none]
      intro r hr
      simpa using hnone r hr
    have hkeep : db.rows.filter (fun r => !(r.product_id == pid)) = db.rows := by
      rw [List.filter_eq_self]
      intro r hr
      simpa using hnone r hr
    simp [delete_product, hf, hkeep]
  · intro r0 s l hf hs hl
    have hda : deleteAttempts (Json.arr (l.map Json.str)) = some (l.map stripSlashes) := by
      simp only [deleteAttempts, List.filterMap_map, Option.some.injEq]
      have hcomp : ((fun e => match e with
          | Json.str p => some (stripSlashes p)
          | _ => none) ∘ Json.str) = some ∘ stripSlashes := rfl
      rw [hcomp, List.filterMap_eq_map]
    simp only [delete_product, hf, hs, hl, hda]
    rw [List.map_map]
    rfl

/-- C1: every successful create assigns `product_id` = `"RW"` + the row
count + 1 zero-padded to (at least) 4 digits, and under sequential
creation starting from an empty store all assigned ids are distinct. -/
theorem create_id_format_and_sequential_unique :
    (∀ (db : DB) (now : Nat) (form : CreateForm) (db' : DB) (w : List FileWrite) (pid : String),
       create_product db now form = (db', w, Except.ok pid) →
       pid = "RW" ++ pad4 (db.rows.length + 1)) ∧
    (∀ ops : List (Nat × CreateForm),
       ((runCreates ops).rows.map Row.product_id).Nodup) := by
  constructor
  · intro db now form db' w pid h
    obtain ⟨nm, ty, cat, det, pr, sz, co, imgs⟩ := form
    cases nm with
    | none => simp [create_product] at h
    | some nm =>
    cases ty with
    | none => simp [create_product] at h
    | some ty =>
    cases cat with
    | none => simp [create_product] at h
    | some cat =>
    cases det with
    | none => simp [create_product] at h
    | some det =>
    cases pr with
    | none => simp [create_product] at h
    | some pr =>
    cases imgs with
    | none => simp [create_product] at h
    | some imgs =>
    cases hdup : db.rows.any (fun r => r.product_id == generate_product_id db) with
    | true => simp [create_product, hdup] at h
    | false =>
      simp only [create_product, hdup, Bool.false_eq_true, if_false, Prod.mk.injEq,
        Except.ok.injEq] at h
      exact h.2.2.symm
  · intro ops
    have h := runCreates_seqIds ops
    unfold SeqIds at h
    rw [h]
    refine List.Nodup.map ?_ (List.nodup_range _)
    intro a b hab
    have := rwId_injective hab
    omega

/-- One fully-named upload batch (two files) for the C2 scenario. -/
def twoFiles : List UploadFile := [⟨"a.jpg", "ca"⟩, ⟨"b.png", "cb"⟩]

/-- A store holding the single product RW0001. -/
def oneRowDB : DB :=
  ⟨[{ id := 1, product_id := "RW0001", name := "n", type := "t", category := "c",
      details := "d", price := 1, sizes := some "[]", colors := some "[]",
      images := some "[\"/static/uploads/RW0001_0.jpg\"]", created_at := 0 }], 2⟩

/-- An update of RW0001 retaining one image and uploading `twoFiles`. -/
def twoFileUpdate : UpdateForm :=
  ⟨some "n2", some "t2", some "c2", some "d2", some 2, none, none, some twoFiles,
   some "[\"/static/uploads/RW0001_0.jpg\"]"⟩

/-- C2 counterexample: with one retained image (r = 1) and two new files
the claim predicts filename indices 1 and 2, but the second file is
saved with index 3 (the growing `image_paths` is added to the
`enumerate` counter). -/
theorem update_filename_index_counterexample :
    (update_product oneRowDB "RW0001" twoFileUpdate).2.1.map Prod.fst
      = ["static/uploads/RW0001_1.jpg", "static/uploads/RW0001_3.png"] ∧
    (update_product oneRowDB "RW0001" twoFileUpdate).2.1.map Prod.fst
      ≠ ["static/uploads/RW0001_1.jpg", "static/uploads/RW0001_2.png"] := by
  decide

/-- C2 (amended): on create each persisted file's name is
`{pid}_{idx}.{ext}` with `idx` the file's position in the batch; on
update (all filenames non-empty, r images retained) the k-th file's
index is r + 2k — the retained count plus the files already persisted in
this batch plus the enumerate position — i.e. indices r, r+2, r+4, ...,
as `expectedUpdateWrites` steps the index by 2. -/
theorem upload_filename_indexing :
    (∀ (db : DB) (now : Nat) (nm ty cat det : String) (pr : ℚ) (sz co : Option String)
       (imgs : List UploadFile),
       (create_product db now
           ⟨some nm, some ty, some cat, some det, some pr, sz, co, some imgs⟩).2.1
         = imgs.enum.filterMap (fun p =>
             if p.2.filename ≠ "" then
               some ("static/uploads/" ++ generate_product_id db ++ "_" ++ natRepr p.1 ++
                       "." ++ lastExt p.2.filename, p.2.content)
             else none)) ∧
    (∀ (db : DB) (pid nm ty cat det : String) (pr : ℚ) (sz co : Option String)
       (imgs : List UploadFile) (exist : String) (l : List Json) (r0 : Row),
       db.rows.find? (fun r => r.product_id == pid) = some r0 →
       jsonLoads exist = some (Json.arr l) →
       (∀ f ∈ imgs, f.filename ≠ "") →
       (update_product db pid
           ⟨some nm, some ty, some cat, some det, some pr, sz, co, some imgs, some exist⟩).2.1
         = expectedUpdateWrites pid l.length imgs) := by
  constructor
  · intro db now nm ty cat det pr sz co imgs
    have hw := saveImagesCreate_writes (generate_product_id db) imgs 0
    cases hdup : db.rows.any (fun r => r.product_id == generate_product_id db) with
    | true =>
      simp only [create_product, hdup, if_true, List.enum]
      exact hw
    | false =>
      simp only [create_product, hdup, Bool.false_eq_true, if_false, List.enum]
      exact hw
  · intro db pid nm ty cat det pr sz co imgs exist l r0 hf hl hall
    simp only [update_product, hf, Option.getD_some, hl]
    exact updateImages_writes_all_named pid l imgs hall

/-- C3: after a successful update, the stored `images` column of the
target row is the JSON encoding of the caller-declared retained list
followed by the public paths of the files persisted by this request, in
write order (each public path being `/` + the written file path). -/
theorem update_images_retained_then_new
    (db : DB) (pid nm ty cat det : String) (pr : ℚ) (sz co : Option String)
    (imgs : Option (List UploadFile)) (exist : String) (l : List Json)
    (db' : DB) (w : List FileWrite) (m : String)
    (hl : jsonLoads exist = some (Json.arr l))
    (h : update_product db pid
        ⟨some nm, some ty, some cat, some det, some pr, sz, co, imgs, some exist⟩
      = (db', w, Except.ok m)) :
    ∀ r' ∈ db'.rows, r'.product_id = pid →
      r'.images = some (jsonDumps (Json.arr
        (l ++ w.map (fun wrt => Json.str ("/" ++ wrt.1))))) := by
  simp only [update_product, Option.getD_some, hl] at h
  cases hf : db.rows.find? (fun r => r.product_id == pid) with
  | none => rw [hf] at h; simp at h
  | some r0 =>
    rw [hf] at h
    simp only [Prod.mk.injEq] at h
    obtain ⟨h1, h2, _⟩ := h
    intro r' hr' hpid
    rw [← h1] at hr'
    simp only at hr'
    obtain ⟨r, _, rfl⟩ := List.mem_map.mp hr'
    by_cases hr : r.product_id == pid
    · simp only [hr, if_true, ite_true]
      have hfinal := updateImages_final pid l imgs
      rw [← h2, hfinal]
    · simp only [hr, if_false, ite_false] at hpid ⊢
      exact absurd hpid (by simpa using hr)

/-- C8: listing with a (truthy) type filter returns exactly the rows
whose `type` equals the filter, newest first by `created_at`, each
deserialized by `rowToProduct` (which maps an absent column to an empty
array). -/
theorem list_type_filter_sorted (db : DB) (t : String) (out : List Product)
    (ht : t ≠ "") (h : get_products db (some t) = Except.ok out) :
    out.Pairwise (fun p q => q.created_at ≤ p.created_at) ∧
    (∀ p ∈ out, ∃ r ∈ db.rows, r.type = t ∧ rowToProduct r = some p) ∧
    (∀ r ∈ db.rows, r.type = t → ∃ p ∈ out, rowToProduct r = some p) ∧
    out.length = (db.rows.filter (fun r => r.type == t)).length := by
  have htruthy : pyTruthy (some t) = true := by
    simp [pyTruthy, ht]
  simp only [get_products, htruthy, if_true, Option.getD_some] at h
  cases hrp : rowsToProducts
      (List.insertionSort newerFirst (db.rows.filter (fun r => r.type == t))) with
  | none => rw [hrp] at h; simp at h
  | some ps =>
    rw [hrp] at h
    simp only [Except.ok.injEq] at h
    subst h
    have hf2 := rowsToProducts_forall₂ hrp
    have hsorted : (List.insertionSort newerFirst
        (db.rows.filter (fun r => r.type == t))).Pairwise newerFirst :=
      List.sorted_insertionSort newerFirst _
    refine ⟨?_, ?_, ?_, ?_⟩
    · refine forall₂_pairwise ?_ hf2 hsorted
      intro a b p q hap hbq hS
      rw [rowToProduct_created_at hap, rowToProduct_created_at hbq]
      exact hS
    · intro p hp
      obtain ⟨r, hrm, hrp'⟩ := forall₂_exists_left hf2 p hp
      have hrf : r ∈ db.rows.filter (fun r => r.type == t) :=
        (List.mem_insertionSort newerFirst).mp hrm
      have := List.mem_filter.mp hrf
      exact ⟨r, this.1, by simpa using this.2, hrp'⟩
    · intro r hr htype
      have hrf : r ∈ db.rows.filter (fun r => r.type == t) :=
        List.mem_filter.mpr ⟨hr, by simp [htype]⟩
      have hrs : r ∈ List.insertionSort newerFirst (db.rows.filter (fun r => r.type == t)) :=
        (List.mem_insertionSort newerFirst).mpr hrf
      exact forall₂_exists_right hf2 r hrs
    · have hlen := List.Forall₂.length_eq hf2
      rw [← hlen, (List.perm_insertionSort newerFirst _).length_eq]

/-! ## Witnesses -/

/-- A complete create form with no image files. -/
def plainForm : CreateForm :=
  ⟨some "A", some "B", some "C", some "D", some 2, some "[]", some "[]", some []⟩

theorem create_id_format_and_sequential_unique_witness :
    ("RW0001" = "RW" ++ pad4 (emptyDB.rows.length + 1)) ∧
    ((runCreates [(0, plainForm), (1, plainForm)]).rows.map Row.product_id).Nodup := by
  constructor
  · exact create_id_format_and_sequential_unique.1 emptyDB 0 plainForm _ _ "RW0001" rfl
  · exact create_id_format_and_sequential_unique.2 [(0, plainForm), (1, plainForm)]

theorem upload_filename_indexing_witness :
    ((create_product emptyDB 5
        ⟨some "N", some "T", some "C", some "D", some 1, none, none,
         some [⟨"a.jpg", "x"⟩, ⟨"b.png", "y"⟩]⟩).2.1
      = [("static/uploads/RW0001_0.jpg", "x"), ("static/uploads/RW0001_1.png", "y")]) ∧
    ((update_product oneRowDB "RW0001" twoFileUpdate).2.1
      = [("static/uploads/RW0001_1.jpg", "ca"), ("static/uploads/RW0001_3.png", "cb")]) := by
  constructor
  · exact (upload_filename_indexing.1 emptyDB 5 "N" "T" "C" "D" 1 none none
      [⟨"a.jpg", "x"⟩, ⟨"b.png", "y"⟩]).trans (by decide)
  · exact (upload_filename_indexing.2 oneRowDB "RW0001" "n2" "t2" "c2" "d2" 2 none none
      twoFiles "[\"/static/uploads/RW0001_0.jpg\"]" [Json.str "/static/uploads/RW0001_0.jpg"]
      _ rfl rfl (by decide)).trans (by decide)

/-- The row of `oneRowDB` after `twoFileUpdate` minus one file: an update
of RW0001 retaining one path and uploading a single new file. -/
def oneFileUpdate : UpdateForm :=
  ⟨some "n2", some "t2", some "c2", some "d2", some 2, none, none, some [⟨"b.jpg", "cb"⟩],
   some "[\"/static/uploads/RW0001_0.jpg\"]"⟩

/-- The row stored for RW0001 after `oneFileUpdate`. -/
def updatedRow : Row :=
  { id := 1, product_id := "RW0001", name := "n2", type := "t2", category := "c2",
    details := "d2", price := 2, sizes := some "[]", colors := some "[]",
    images := some "[\"/static/uploads/RW0001_0.jpg\", \"/static/uploads/RW0001_1.jpg\"]",
    created_at := 0 }

theorem update_images_retained_then_new_witness :
    jsonLoads "[\"/static/uploads/RW0001_0.jpg\"]"
      = some (Json.arr [Json.str "/static/uploads/RW0001_0.jpg"]) ∧
    updatedRow.images = some (jsonDumps (Json.arr
      ([Json.str "/static/uploads/RW0001_0.jpg"] ++
        List.map (fun wrt => Json.str ("/" ++ wrt.1))
          [("static/uploads/RW0001_1.jpg", "cb")]))) := by
  have h := update_images_retained_then_new oneRowDB "RW0001" "n2" "t2" "c2" "d2" 2
    none none (some [⟨"b.jpg", "cb"⟩]) "[\"/static/uploads/RW0001_0.jpg\"]"
    [Json.str "/static/uploads/RW0001_0.jpg"] _ _ _ rfl rfl
  exact ⟨rfl, h updatedRow (by decide) rfl⟩

theorem create_stores_sizes_colors_verbatim_witness :
    (emptyDB.rows.any (fun r => r.product_id == generate_product_id emptyDB) = false) ∧
    ∃ row : Row,
      (create_product emptyDB 3
          ⟨some "N", some "T", some "C", some "D", some 1, some "oops [", some "\x7b\x7d",
           some []⟩).1.rows
        = emptyDB.rows ++ [row] ∧
      row.sizes = some "oops [" ∧ row.colors = some "\x7b\x7d" ∧
      (create_product emptyDB 3
          ⟨some "N", some "T", some "C", some "D", some 1, some "oops [", some "\x7b\x7d",
           some []⟩).2.2
        = Except.ok (generate_product_id emptyDB) :=
  ⟨rfl, create_stores_sizes_colors_verbatim emptyDB 3 "N" "T" "C" "D" "oops [" "\x7b\x7d" 1 [] rfl⟩

/-- A store holding one product RW0001, for the C6 witness. -/
def c6row : Row :=
  { id := 1, product_id := "RW0001", name := "n", type := "t", category := "c",
    details := "d", price := 1, sizes := some "[]", colors := some "[]",
    images := some "[]", created_at := 0 }

def c6db : DB := ⟨[c6row], 2⟩

theorem get_update_not_found_behavior_witness :
    (get_product emptyDB "RW0001" = Except.error 404 ∧
     update_product emptyDB "RW0001"
         ⟨some "n", some "t", some "c", some "d", some 1, none, none, none, none⟩
       = (emptyDB, [], Except.error 404)) ∧
    (get_product c6db "RW0001" ≠ Except.error 404 ∧
     (update_product c6db "RW0001"
         ⟨some "n", some "t", some "c", some "d", some 1, none, none, none, none⟩).2.2
       ≠ Except.error 404) := by
  constructor
  · exact (get_update_not_found_behavior emptyDB "RW0001" "n" "t" "c" "d" 1
      none none none none).1 (by decide)
  · exact (get_update_not_found_behavior c6db "RW0001" "n" "t" "c" "d" 1
      none none none none).2 ⟨c6row, by decide, rfl⟩

/-- A store holding one product RW0001 with one stored image, for the C7
witness; the removal oracle always reports failure, which is swallowed. -/
def c7row : Row :=
  { id := 1, product_id := "RW0001", name := "n", type := "t", category := "c",
    details := "d", price := 1, sizes := some "[]", colors := some "[]",
    images := some "[\"/static/uploads/RW0001_0.jpg\"]", created_at := 0 }

def c7db : DB := ⟨[c7row], 2⟩

theorem delete_always_reports_success_witness :
    (delete_product emptyDB "RW0002" (fun _ => false) = (emptyDB, [], Except.ok ())) ∧
    (delete_product c7db "RW0001" (fun _ => false) =
      ({ c7db with rows := c7db.rows.filter (fun r => !(r.product_id == "RW0001")) },
       [("static/uploads/RW0001_0.jpg", false)], Except.ok ())) := by
  constructor
  · exact (delete_always_reports_success emptyDB "RW0002" (fun _ => false)).1 (by decide)
  · exact ((delete_always_reports_success c7db "RW0001" (fun _ => false)).2 c7row
      "[\"/static/uploads/RW0001_0.jpg\"]" ["/static/uploads/RW0001_0.jpg"]
      rfl rfl rfl).trans (by rfl)

/-- A store with two "shoes" rows (created at 1 and 9) and one "shirt"
row, for the C8 witness. -/
def c8db : DB :=
  ⟨[{ id := 1, product_id := "RW0001", name := "a", type := "shoes", category := "c",
      details := "d", price := 1, sizes := some "[]", colors := some "[]",
      images := some "[]", created_at := 1 },
    { id := 2, product_id := "RW0002", name := "b", type := "shirt", category := "c",
      details := "d", price := 1, sizes := some "[]", colors := some "[]",
      images := some "[]", created_at := 5 },
    { id := 3, product_id := "RW0003", name := "c", type := "shoes", category := "c",
      details := "d", price := 1, sizes := some "[]", colors := some "[]",
      images := some "[]", created_at := 9 }], 4⟩

/-- The list returned for `type=shoes` against `c8db`. -/
def c8out : List Product := ((get_products c8db (some "shoes")).toOption).getD []

theorem list_type_filter_sorted_witness :
    (("shoes" : String) ≠ "") ∧
    (get_products c8db (some "shoes") = Except.ok c8out) ∧
    c8out.Pairwise (fun p q => q.created_at ≤ p.created_at) ∧
    (∀ p ∈ c8out, ∃ r ∈ c8db.rows, r.type = "shoes" ∧ rowToProduct r = some p) ∧
    (∀ r ∈ c8db.rows, r.type = "shoes" → ∃ p ∈ c8out, rowToProduct r = some p) ∧
    c8out.length = (c8db.rows.filter (fun r => r.type == "shoes")).length := by
  have h := list_type_filter_sorted c8db "shoes" c8out (by decide) rfl
  exact ⟨by decide, rfl, h.1, h.2.1, h.2.2.1, h.2.2.2⟩

theorem update_preserves_id_and_created_at_witness :
    List.Forall₂ (fun r r' => r'.id = r.id ∧ r'.product_id = r.product_id ∧
        r'.created_at = r.created_at)
      oneRowDB.rows (update_product oneRowDB "RW0001" twoFileUpdate).1.rows :=
  update_preserves_id_and_created_at oneRowDB "RW0001" "n2" "t2" "c2" "d2" 2
    none none (some twoFiles) (some "[\"/static/uploads/RW0001_0.jpg\"]") _ _ _ rfl
